import Mathlib

/-!
Shallow embedding of the pagination engine of a NestJS starter template:
`normalizePaginationOptions`, `buildPaginationMeta` and `paginate` from
`src/common/utils/orm-filter.util.ts`, together with the constants of
`src/common/constants/app.constant.ts` and the types of
`pagination.interface.ts`.  Every pagination quantity is an integer in the
source's data model, so numbers are embedded as `Int`; the asynchronous
fetch callback is embedded as a function into an arbitrary monad, standing
for the ambient promise/effect of the source.
-/

namespace Pagination

/-- `DEFAULT_LIMIT` from `app.constant.ts`: default items per page. -/
def DEFAULT_LIMIT : Int := 10

/-- `MIN_PAGE` from `app.constant.ts`: minimum page number. -/
def MIN_PAGE : Int := 1

/-- `MAX_PAGE_SIZE` from `app.constant.ts`: maximum allowed page size. -/
def MAX_PAGE_SIZE : Int := 100

/-- `PaginationOptions` from `pagination.interface.ts`: optional page and
limit, any integers. -/
structure PaginationOptions where
  page : Option Int
  limit : Option Int
deriving Repr, DecidableEq

/-- `Required<PaginationOptions>`: both fields present. -/
structure RequiredPaginationOptions where
  page : Int
  limit : Int
deriving Repr, DecidableEq

/-- View a normalized pair as raw options again (both fields present), as
happens when a normalized object is fed back to `normalizePaginationOptions`. -/
def RequiredPaginationOptions.toOptions
    (o : RequiredPaginationOptions) : PaginationOptions :=
  { page := some o.page, limit := some o.limit }

/-- `PaginationMeta` from `pagination.interface.ts`. -/
structure PaginationMeta where
  total : Int
  count : Int
  page : Int
  limit : Int
  totalPages : Int
  firstItem : Int
  lastItem : Int
  nextPage : Option Int
  previousPage : Option Int
  hasNextPage : Bool
  hasPreviousPage : Bool
deriving Repr, DecidableEq

/-- `PaginatedResponse<T>` from `pagination.interface.ts`. -/
structure PaginatedResponse (α : Type) where
  data : List α
  meta : PaginationMeta

/-- `PaginateOptions<T>`: pagination options plus an optional per-item
transform.  The source types the transform `(item: T) => unknown` and casts
the mapped list back `as T[]`; the embedding keeps the element type. -/
structure PaginateOptions (α : Type) where
  page : Option Int
  limit : Option Int
  transform : Option (α → α)

/-- The `PaginationOptions` part of a `PaginateOptions` value. -/
def PaginateOptions.toPaginationOptions
    (o : PaginateOptions α) : PaginationOptions :=
  { page := o.page, limit := o.limit }

/-- `normalizePaginationOptions` from `orm-filter.util.ts`:
`page = Math.max(options.page ?? MIN_PAGE, MIN_PAGE)`,
`limit = Math.min(Math.max(options.limit ?? DEFAULT_LIMIT, 1), MAX_PAGE_SIZE)`. -/
def normalizePaginationOptions
    (options : PaginationOptions) : RequiredPaginationOptions :=
  { page := max (options.page.getD MIN_PAGE) MIN_PAGE
    limit := min (max (options.limit.getD DEFAULT_LIMIT) 1) MAX_PAGE_SIZE }

/-- Integer model of `Math.ceil(total / limit)` for a positive divisor:
the exact ceiling of the rational quotient, written with the Euclidean
(for a positive divisor: floor) integer division of `Int`. -/
def ceilDiv (a b : Int) : Int := -((-a) / b)

/-- Spec-side definition for the refinement claim about `totalPages`:
"exact integer ceiling division", in its standard integer form
`(a + b - 1) div b` for a positive divisor `b`. -/
def specCeilDiv (a b : Int) : Int := (a + b - 1) / b

/-- `buildPaginationMeta` from `orm-filter.util.ts`. -/
def buildPaginationMeta (total count skip : Int)
    (options : RequiredPaginationOptions) : PaginationMeta :=
  let totalPages := max (ceilDiv total options.limit) 1
  let firstItem := if total > 0 then skip + 1 else 0
  let lastItem := if total > 0 then skip + count else 0
  { total := total
    count := count
    page := options.page
    limit := options.limit
    totalPages := totalPages
    firstItem := firstItem
    lastItem := lastItem
    nextPage := if options.page < totalPages then some (options.page + 1) else none
    previousPage := if options.page > 1 then some (options.page - 1) else none
    hasNextPage := decide (options.page < totalPages)
    hasPreviousPage := decide (options.page > 1) }

/-- `paginate` from `orm-filter.util.ts`, over an arbitrary monad `m`
standing for the source's `async`: normalize, compute the skip offset,
invoke the callback once with `(skip, limit)`, optionally transform the
items, and build the metadata from the reported total and the number of
items actually returned. -/
def paginate {m : Type → Type v} [Monad m] (options : PaginateOptions α)
    (callback : Int → Int → m (List α × Int)) : m (PaginatedResponse α) := do
  let normalized := normalizePaginationOptions options.toPaginationOptions
  let skip := (normalized.page - 1) * normalized.limit
  let (items, total) ← callback skip normalized.limit
  let transformedData := match options.transform with
    | some t => items.map t
    | none => items
  let meta := buildPaginationMeta total (items.length : Int) skip normalized
  pure { data := transformedData, meta := meta }

/-- The options `paginate` normalizes: shorthand for statements. -/
def normalizedOf (opts : PaginateOptions α) : RequiredPaginationOptions :=
  normalizePaginationOptions opts.toPaginationOptions

/-- The skip offset `paginate` computes: `(page - 1) * limit` over the
normalized options. -/
def skipOf (opts : PaginateOptions α) : Int :=
  ((normalizedOf opts).page - 1) * (normalizedOf opts).limit

/-- Model of the JS `x => x.toUpperCase()` transform of the spec's example
(ASCII strings): upper-case every character. -/
def toUpperCase (s : String) : String := String.mk (s.data.map Char.toUpper)

/-- An instrumented fetch callback: computes `f` and records the `(skip,
take)` arguments of each invocation in a state log. -/
def loggingCallback (f : Int → Int → List α × Int) :
    Int → Int → StateM (List (Int × Int)) (List α × Int) :=
  fun skip take log => (f skip take, log ++ [(skip, take)])

/-- An instrumented fallible fetch callback: records the arguments of each
invocation, then returns what `f` returns there — a result or a failure. -/
def loggingExceptCallback (f : Int → Int → Except ε (List α × Int)) :
    Int → Int → ExceptT ε (StateM (List (Int × Int))) (List α × Int) :=
  fun skip take => ExceptT.mk fun log => (f skip take, log ++ [(skip, take)])

end Pagination

namespace Pagination

/-- Helper: the normalized page is at least 1. -/
theorem normalize_page_lower (p : PaginationOptions) :
    1 ≤ (normalizePaginationOptions p).page :=
  le_max_right _ _

/-- Helper: the normalized limit is at least 1. -/
theorem normalize_limit_lower (p : PaginationOptions) :
    1 ≤ (normalizePaginationOptions p).limit :=
  le_min (le_max_right _ _) (by norm_num [MAX_PAGE_SIZE])

/-- Helper: the normalized limit is at most 100. -/
theorem normalize_limit_upper (p : PaginationOptions) :
    (normalizePaginationOptions p).limit ≤ 100 :=
  min_le_right _ _

/-- C1: `normalizePaginationOptions` returns `page = max(page ?? 1, 1)` and
`limit = min(max(limit ?? 10, 1), 100)` (it is a total function, so it never
raises), and the result always satisfies `page ≥ 1` and `1 ≤ limit ≤ 100`. -/
theorem normalize_clamps (p : PaginationOptions) :
    normalizePaginationOptions p =
      { page := max (p.page.getD 1) 1
        limit := min (max (p.limit.getD 10) 1) 100 } ∧
    1 ≤ (normalizePaginationOptions p).page ∧
    1 ≤ (normalizePaginationOptions p).limit ∧
    (normalizePaginationOptions p).limit ≤ 100 :=
  ⟨rfl, normalize_page_lower p, normalize_limit_lower p, normalize_limit_upper p⟩

/-- C2 counterexample: a provided `limit = 0` (which is `≤ 0`) normalizes to
`1`, not to the default `10`. -/
theorem normalize_limit_zero_not_default :
    ¬ (normalizePaginationOptions { page := none, limit := some 0 }).limit = 10 := by
  decide

/-- C2 amended: a missing limit normalizes to the default `10`; a provided
limit `≤ 0` is clamped to `1` instead. -/
theorem normalize_limit_defaults (p : PaginationOptions) :
    (p.limit = none → (normalizePaginationOptions p).limit = 10) ∧
    (∀ l, p.limit = some l → l ≤ 0 → (normalizePaginationOptions p).limit = 1) := by
  constructor
  · intro h
    simp [normalizePaginationOptions, h, DEFAULT_LIMIT, MAX_PAGE_SIZE]
  · intro l hl hle
    simp only [normalizePaginationOptions, hl, Option.getD_some, MAX_PAGE_SIZE]
    omega

/-- Witness for C2 amended at concrete inputs. -/
theorem normalize_limit_defaults_witness :
    (normalizePaginationOptions { page := none, limit := none }).limit = 10 ∧
    (normalizePaginationOptions { page := none, limit := some (-5) }).limit = 1 :=
  ⟨(normalize_limit_defaults { page := none, limit := none }).1 rfl,
   (normalize_limit_defaults { page := none, limit := some (-5) }).2 (-5) rfl (by decide)⟩

/-- Helper: for a positive divisor, the code's `Math.ceil` model agrees with
exact integer ceiling division. -/
theorem ceilDiv_eq_specCeilDiv (a : Int) {b : Int} (hb : 1 ≤ b) :
    ceilDiv a b = specCeilDiv a b := by
  have hb0 : b ≠ 0 := by omega
  obtain ⟨q, r, ha, hr0, hrb⟩ : ∃ q r, a = b * q + r ∧ 0 ≤ r ∧ r < b :=
    ⟨a / b, a % b, by linarith [Int.ediv_add_emod a b], Int.emod_nonneg a hb0,
      Int.emod_lt_of_pos a (by omega)⟩
  subst ha
  unfold ceilDiv specCeilDiv
  have h1 : (b * q + r + b - 1) / b = (r + b - 1) / b + q := by
    have e : b * q + r + b - 1 = (r + b - 1) + b * q := by ring
    rw [e, Int.add_mul_ediv_left _ _ hb0]
  have h2 : (-(b * q + r)) / b = (-r) / b + (-q) := by
    have e : -(b * q + r) = (-r) + b * (-q) := by ring
    rw [e, Int.add_mul_ediv_left _ _ hb0]
  rcases eq_or_lt_of_le hr0 with h0 | hpos
  · have hr' : (r + b - 1) / b = 0 := Int.ediv_eq_zero_of_lt (by omega) (by omega)
    have hn : (-r) / b = 0 := by
      rw [← h0]
      simp
    rw [h1, h2, hr', hn]
    ring
  · have hr' : (r + b - 1) / b = 1 := by
      have e : r + b - 1 = (r - 1) + b * 1 := by ring
      rw [e, Int.add_mul_ediv_left _ _ hb0,
        Int.ediv_eq_zero_of_lt (by omega) (by omega)]
      omega
    have hn : (-r) / b = -1 := by
      have e : -r = (b - r) + b * (-1) := by ring
      rw [e, Int.add_mul_ediv_left _ _ hb0,
        Int.ediv_eq_zero_of_lt (by omega) (by omega)]
      omega
    rw [h1, h2, hr', hn]
    ring

/-- C5: for every `total ≥ 0` and `limit ≥ 1`, the `totalPages` field of
`buildPaginationMeta` is `max(ceil(total / limit), 1)` with exact integer
ceiling division; in particular it is `1` when `total = 0`. -/
theorem totalPages_exact_ceiling (total count skip : Int)
    (o : RequiredPaginationOptions) (htotal : 0 ≤ total) (hlimit : 1 ≤ o.limit) :
    (buildPaginationMeta total count skip o).totalPages =
      max (specCeilDiv total o.limit) 1 ∧
    (total = 0 → (buildPaginationMeta total count skip o).totalPages = 1) := by
  have h := ceilDiv_eq_specCeilDiv total hlimit
  constructor
  · simp [buildPaginationMeta, h]
  · intro h0
    subst h0
    simp [buildPaginationMeta, ceilDiv]

/-- Witness for C5 at `total = 25`, `limit = 10` (and the `total = 0` case). -/
theorem totalPages_exact_ceiling_witness :
    (buildPaginationMeta 25 10 0 { page := 1, limit := 10 }).totalPages = 3 ∧
    (buildPaginationMeta 0 0 0 { page := 1, limit := 10 }).totalPages = 1 := by
  constructor
  · have h := (totalPages_exact_ceiling 25 10 0 { page := 1, limit := 10 }
      (by decide) (by decide)).1
    rw [h]
    decide
  · exact (totalPages_exact_ceiling 0 0 0 { page := 1, limit := 10 }
      (by decide) (by decide)).2 rfl

/-- C4: the item-range and navigation fields of `buildPaginationMeta`:
`firstItem`/`lastItem` are `0` when `total = 0` and `skip + 1`/`skip + count`
when `total > 0`; `hasNextPage` is `page < totalPages`, `hasPreviousPage` is
`page > 1`; `nextPage`/`previousPage` are the adjacent page numbers exactly
when the corresponding flag holds, else `null`. -/
theorem meta_fields (total count skip : Int) (o : RequiredPaginationOptions)
    (htotal : 0 ≤ total) :
    (total = 0 → (buildPaginationMeta total count skip o).firstItem = 0 ∧
       (buildPaginationMeta total count skip o).lastItem = 0) ∧
    (0 < total → (buildPaginationMeta total count skip o).firstItem = skip + 1 ∧
       (buildPaginationMeta total count skip o).lastItem = skip + count) ∧
    ((buildPaginationMeta total count skip o).hasNextPage = true ↔
       o.page < (buildPaginationMeta total count skip o).totalPages) ∧
    ((buildPaginationMeta total count skip o).hasPreviousPage = true ↔
       o.page > 1) ∧
    ((buildPaginationMeta total count skip o).nextPage =
       if o.page < (buildPaginationMeta total count skip o).totalPages
       then some (o.page + 1) else none) ∧
    ((buildPaginationMeta total count skip o).previousPage =
       if o.page > 1 then some (o.page - 1) else none) := by
  refine ⟨?_, ?_, ?_, ?_, ?_, ?_⟩
  · intro h0
    subst h0
    simp [buildPaginationMeta]
  · intro hpos
    simp [buildPaginationMeta, hpos]
  · simp [buildPaginationMeta]
  · simp [buildPaginationMeta]
  · simp [buildPaginationMeta]
  · simp [buildPaginationMeta]

/-- Witness for C4 at `total = 50`, `count = 2`, `skip = 0`, page 1 of
limit 2. -/
theorem meta_fields_witness :
    (buildPaginationMeta 50 2 0 { page := 1, limit := 2 }).firstItem = 0 + 1 ∧
    (buildPaginationMeta 50 2 0 { page := 1, limit := 2 }).lastItem = 0 + 2 :=
  (meta_fields 50 2 0 { page := 1, limit := 2 } (by decide)).2.1 (by decide)

/-- C10: when the data source reports `total > 0` but returns an empty page
(`count = 0`), `buildPaginationMeta` yields `firstItem = skip + 1` and
`lastItem = skip`, an inverted range, and `firstItem` can exceed `total`
(e.g. `total = 5`, `skip = 20` gives `firstItem = 21 > 5`): the 1-based
range is never validated against `total`. -/
theorem meta_range_inverted (total count skip : Int)
    (o : RequiredPaginationOptions) (htotal : 0 < total) (hcount : count = 0) :
    (buildPaginationMeta total count skip o).firstItem = skip + 1 ∧
    (buildPaginationMeta total count skip o).lastItem = skip ∧
    (buildPaginationMeta total count skip o).lastItem <
      (buildPaginationMeta total count skip o).firstItem ∧
    5 < (buildPaginationMeta 5 0 20 { page := 3, limit := 10 }).firstItem := by
  subst hcount
  refine ⟨?_, ?_, ?_, by decide⟩ <;> simp [buildPaginationMeta, htotal]

/-- Witness for C10 at `total = 5`, `count = 0`, `skip = 20`. -/
theorem meta_range_inverted_witness :
    (buildPaginationMeta 5 0 20 { page := 3, limit := 10 }).firstItem = 20 + 1 ∧
    (buildPaginationMeta 5 0 20 { page := 3, limit := 10 }).lastItem = 20 ∧
    (buildPaginationMeta 5 0 20 { page := 3, limit := 10 }).lastItem <
      (buildPaginationMeta 5 0 20 { page := 3, limit := 10 }).firstItem ∧
    5 < (buildPaginationMeta 5 0 20 { page := 3, limit := 10 }).firstItem :=
  meta_range_inverted 5 0 20 { page := 3, limit := 10 } (by decide) rfl

/-- C9: `normalizePaginationOptions` is idempotent: normalizing an already
normalized pair returns the same pair. -/
theorem normalize_idempotent (p : PaginationOptions) :
    normalizePaginationOptions (normalizePaginationOptions p).toOptions =
      normalizePaginationOptions p := by
  simp only [normalizePaginationOptions, RequiredPaginationOptions.toOptions,
    Option.getD_some, MIN_PAGE, DEFAULT_LIMIT, MAX_PAGE_SIZE,
    RequiredPaginationOptions.mk.injEq]
  omega

/-- C3: `paginate` first normalizes the options, computes
`skip = (page - 1) * limit` from the normalized pair, and invokes the
callback exactly once, with arguments `(skip, limit)`; in particular with
`{page: -1, limit: 500}` the callback is invoked once with `(0, 100)`. -/
theorem paginate_calls_once (opts : PaginateOptions α)
    (f : Int → Int → List α × Int) :
    ((paginate opts (loggingCallback f)).run []).2 =
      [(skipOf opts, (normalizedOf opts).limit)] ∧
    ((paginate { page := some (-1), limit := some 500, transform := none }
        (loggingCallback f)).run []).2 = [(0, 100)] := by
  constructor
  · rfl
  · rfl

/-- C6: under the outbound-interface precondition on the callback (at most
`take` items and a non-negative total, for every non-negative skip and
positive take), the `count` in the meta returned by `paginate` equals the
number of items the callback returned, and `0 ≤ count ≤ limit` holds for
the normalized limit. -/
theorem paginate_count_bounded (opts : PaginateOptions α)
    (f : Int → Int → List α × Int)
    (hf : ∀ s t : Int, 0 ≤ s → 1 ≤ t →
      ((f s t).1.length : Int) ≤ t ∧ 0 ≤ (f s t).2) :
    (paginate (m := Id) opts f).meta.count =
      ((f (skipOf opts) (normalizedOf opts).limit).1.length : Int) ∧
    0 ≤ (paginate (m := Id) opts f).meta.count ∧
    (paginate (m := Id) opts f).meta.count ≤ (normalizedOf opts).limit := by
  have hpage := normalize_page_lower opts.toPaginationOptions
  have hlimit := normalize_limit_lower opts.toPaginationOptions
  have hskip : 0 ≤ skipOf opts := by
    unfold skipOf normalizedOf
    exact mul_nonneg (by omega) (by omega)
  have hcall := hf (skipOf opts) (normalizedOf opts).limit hskip hlimit
  have hcount : (paginate (m := Id) opts f).meta.count =
      ((f (skipOf opts) (normalizedOf opts).limit).1.length : Int) := rfl
  refine ⟨hcount, ?_, ?_⟩
  · rw [hcount]
    positivity
  · rw [hcount]
    exact hcall.1

/-- Witness for C6 with a callback that returns no items and total `7`. -/
theorem paginate_count_bounded_witness :
    (paginate (m := Id)
        ({ page := some 2, limit := some 5, transform := none } :
          PaginateOptions Int)
        (fun _ _ => ([], 7))).meta.count = 0 ∧
    0 ≤ (paginate (m := Id)
        ({ page := some 2, limit := some 5, transform := none } :
          PaginateOptions Int)
        (fun _ _ => ([], 7))).meta.count ∧
    (paginate (m := Id)
        ({ page := some 2, limit := some 5, transform := none } :
          PaginateOptions Int)
        (fun _ _ => ([], 7))).meta.count ≤
      (normalizedOf ({ page := some 2, limit := some 5, transform := none } :
        PaginateOptions Int)).limit := by
  have h := paginate_count_bounded
    ({ page := some 2, limit := some 5, transform := none } :
      PaginateOptions Int)
    (fun _ _ => ([], 7))
    (fun s t hs ht => ⟨by simp; omega, by norm_num⟩)
  exact ⟨h.1, h.2.1, h.2.2⟩

/-- C7: with a transform, the `data` returned by `paginate` is the items
mapped elementwise in order — same length, i-th element the transform of
the i-th item; with no transform the items pass through unchanged; e.g.
upper-casing items `["a", "b"]` (with total 45, page 5, limit 10) yields
`["A", "B"]`. -/
theorem paginate_transform_pointwise (opts : PaginateOptions α)
    (f : Int → Int → List α × Int) :
    (∀ t, opts.transform = some t →
      (paginate (m := Id) opts f).data =
        ((f (skipOf opts) (normalizedOf opts).limit).1).map t ∧
      (paginate (m := Id) opts f).data.length =
        ((f (skipOf opts) (normalizedOf opts).limit).1).length ∧
      ∀ i : Nat, ((paginate (m := Id) opts f).data)[i]? =
        (((f (skipOf opts) (normalizedOf opts).limit).1)[i]?).map t) ∧
    (opts.transform = none →
      (paginate (m := Id) opts f).data =
        (f (skipOf opts) (normalizedOf opts).limit).1) ∧
    (paginate (m := Id)
        ({ page := some 5, limit := some 10, transform := some toUpperCase } :
          PaginateOptions String)
        (fun _ _ => (["a", "b"], 45))).data = ["A", "B"] := by
  refine ⟨?_, ?_, by decide⟩
  · intro t ht
    have hdata : (paginate (m := Id) opts f).data =
        ((f (skipOf opts) (normalizedOf opts).limit).1).map t := by
      show (match opts.transform with
        | some u => ((f (skipOf opts) (normalizedOf opts).limit).1).map u
        | none => (f (skipOf opts) (normalizedOf opts).limit).1) =
          ((f (skipOf opts) (normalizedOf opts).limit).1).map t
      rw [ht]
    refine ⟨hdata, ?_, ?_⟩
    · rw [hdata, List.length_map]
    · intro i
      rw [hdata, List.getElem?_map]
  · intro ht
    show (match opts.transform with
      | some u => ((f (skipOf opts) (normalizedOf opts).limit).1).map u
      | none => (f (skipOf opts) (normalizedOf opts).limit).1) =
        (f (skipOf opts) (normalizedOf opts).limit).1
    rw [ht]

/-- Witness for C7: the upper-casing example, and an identity pass-through,
both obtained from the theorem at concrete inputs. -/
theorem paginate_transform_pointwise_witness :
    (paginate (m := Id)
        ({ page := some 5, limit := some 10, transform := some toUpperCase } :
          PaginateOptions String)
        (fun _ _ => (["a", "b"], 45))).data =
      (["a", "b"].map toUpperCase : List String) ∧
    (paginate (m := Id)
        ({ page := some 1, limit := some 10, transform := none } :
          PaginateOptions String)
        (fun _ _ => (["a", "b"], 45))).data = ["a", "b"] := by
  constructor
  · exact ((paginate_transform_pointwise
      ({ page := some 5, limit := some 10, transform := some toUpperCase } :
        PaginateOptions String)
      (fun _ _ => (["a", "b"], 45))).1 toUpperCase rfl).1
  · exact (paginate_transform_pointwise
      ({ page := some 1, limit := some 10, transform := none } :
        PaginateOptions String)
      (fun _ _ => (["a", "b"], 45))).2.1 rfl

/-- C8: `paginate` is transparent to callback failures: it fails with error
`e` exactly when the callback failed with the same `e` (the error is not
wrapped or altered), and even then the callback was invoked exactly once,
with `(skip, limit)` --- no retry. -/
theorem paginate_error_transparent (opts : PaginateOptions α)
    (f : Int → Int → Except ε (List α × Int)) :
    (∀ e : ε,
      (((paginate opts (loggingExceptCallback f)).run.run []).1 =
          Except.error e ↔
        f (skipOf opts) (normalizedOf opts).limit = Except.error e)) ∧
    ((paginate opts (loggingExceptCallback f)).run.run []).2 =
      [(skipOf opts, (normalizedOf opts).limit)] := by
  have key : (paginate opts (loggingExceptCallback f)).run.run [] =
      ((f (skipOf opts) (normalizedOf opts).limit).map fun p =>
        ({ data := match opts.transform with
             | some t => p.1.map t
             | none => p.1
           meta := buildPaginationMeta p.2 (p.1.length : Int) (skipOf opts)
             (normalizedOf opts) } : PaginatedResponse α),
       [(skipOf opts, (normalizedOf opts).limit)]) := by
    rcases hf : f (skipOf opts) (normalizedOf opts).limit with e₀ | p
    all_goals
      simp only [paginate, loggingExceptCallback, ExceptT.run, ExceptT.mk,
        bind, ExceptT.bind, ExceptT.bindCont, StateT.run, StateT.bind,
        pure, ExceptT.pure, StateT.pure, skipOf, normalizedOf,
        Except.map] at hf ⊢
      rw [hf]
      rfl
  constructor
  · intro e
    rw [key]
    rcases hf : f (skipOf opts) (normalizedOf opts).limit with e₀ | p <;>
      simp [Except.map]
  · rw [key]

end Pagination
